import Mathlib

/-!
Verification development for the RIDS (RF Interference Data System) repository,
a shallow embedding of `rids.py`.

Modelling conventions:
* Python strings are modelled as `List Char` (`PyStr`), so that every string
  operation is structurally recursive and evaluates inside the kernel.
* Python values that flow through the JSON codec are modelled by the `Json`
  inductive; Python `None` is `Json.null`.  JSON numbers (Python floats) are
  modelled as rationals.
* Fallible Python code (uncaught exceptions) is modelled in `Except PyError`.
  When an exception propagates, the partially mutated in-memory state is
  discarded: it is unobservable, since the exception escapes through
  `process_files`, the outermost entry point.
* External collaborators that are not part of this repository
  (`peaks.fp`, `rids_utils.spectrum_reader`, `rids_utils.peel_type_polarization`,
  `rids_utils.peel_time_stamp`) are parameters of the embedding, constrained
  only by their interface contracts; theorems quantify over them.
* The byte-level JSON/gzip container is abstracted: the codec is modelled at
  the level of the decoded value (`Option Json`, with `none` standing for a
  source whose decode fails), which the spec explicitly permits.
-/

/-- Python strings, as lists of characters. -/
abbrev PyStr := List Char

/-- Literal embedding of a Lean string into the model. -/
def pystr (s : String) : PyStr := s.data

/-- A decoded JSON value (also used for dynamically typed Python attribute
slots, with `null` playing the role of Python `None`).  Numbers are modelled
as rationals. -/
inductive Json where
  | null : Json
  | bool : Bool → Json
  | num : ℚ → Json
  | str : PyStr → Json
  | arr : List Json → Json
  | obj : List (PyStr × Json) → Json

/-- Uncaught Python exception kinds reachable in the modelled code. -/
inductive PyError where
  | formatError    -- ValueError from json.load (malformed container)
  | typeError
  | attributeError
  | indexError
  | keyError
  | unboundLocal   -- UnboundLocalError
  | fileNotFound   -- OSError from os.remove
deriving DecidableEq

/-- Antenna polarization, `Rids.polarizations = ['E', 'N']`. -/
inductive Pol where
  | E : Pol
  | N : Pol
deriving DecidableEq

def Pol.code : Pol → PyStr
  | .E => pystr "E"
  | .N => pystr "N"

/-- Characters Python `str.split()` (no argument) treats as separators. -/
def pyWhitespace (c : Char) : Bool :=
  c = ' ' || c = '\t' || c = '\n' || c = '\r' || c = '\x0b' || c = '\x0c'

/-- Helper for `pySplitWs`: `acc` is the current token, reversed. -/
def splitWsAux : List Char → List Char → List PyStr
  | [], acc => if acc = [] then [] else [acc.reverse]
  | c :: rest, acc =>
    if pyWhitespace c then
      (if acc = [] then [] else [acc.reverse]) ++ splitWsAux rest []
    else
      splitWsAux rest (c :: acc)

/-- Python `s.split()`: split on runs of whitespace, dropping empty tokens. -/
def pySplitWs (s : PyStr) : List PyStr :=
  splitWsAux s []

/-- Does the second list start with the first? -/
def isAtFront : List Char → List Char → Bool
  | [], _ => true
  | _ :: _, [] => false
  | a :: as, b :: bs => a = b && isAtFront as bs

/-- Python `sub in s` for strings: substring test. -/
def hasSub (sub : PyStr) : PyStr → Bool
  | [] => sub = []
  | c :: rest => isAtFront sub (c :: rest) || hasSub sub rest

/-- Python `str.lower()` on a single ASCII character (the only characters the
claims exercise; Python also lowers non-ASCII letters). -/
def charLower (c : Char) : Char :=
  if c.toNat ≥ 65 && c.toNat ≤ 90 then Char.ofNat (c.toNat + 32) else c

/-- Python `s.lower()`. -/
def pyLower (s : PyStr) : PyStr := s.map charLower

/-- Numeric value of a list of decimal digit characters. -/
def natOfDigits (cs : List Char) : ℕ :=
  cs.foldl (fun n c => 10 * n + (c.toNat - 48)) 0

/-- Python `float(s)` on plain decimal literals: optional sign, digits with an
optional decimal point (`"12.5"`, `"12."`, `".5"`).  Exponents, `inf`/`nan`,
underscores and surrounding whitespace — which Python also accepts — are not
modelled; no claim exercises them.  `none` models the `ValueError` branch. -/
def pyFloat? (s : PyStr) : Option ℚ :=
  let signed : Bool × List Char :=
    match s with
    | '-' :: t => (true, t)
    | '+' :: t => (false, t)
    | t => (false, t)
  let neg := signed.1
  let body := signed.2
  let intPart := body.takeWhile (· ≠ '.')
  let rest := body.dropWhile (· ≠ '.')
  let mag : Option ℚ :=
    match rest with
    | [] =>
      if intPart ≠ [] && intPart.all Char.isDigit then
        some (natOfDigits intPart)
      else none
    | '.' :: frac =>
      if (intPart ++ frac) ≠ [] && intPart.all Char.isDigit && frac.all Char.isDigit then
        some ((natOfDigits intPart : ℚ) + (natOfDigits frac : ℚ) / (10 : ℚ) ^ frac.length)
      else none
    | _ => none
  mag.map (fun q => if neg then -q else q)

/-- Decimal digits of a natural number (helper for `pyStr`). -/
def natDigits (n : ℕ) : PyStr :=
  (Nat.toDigits 10 n)

/-- Python `str(x)` as used by `rid_writer`'s `"{} {}".format(...)` and the
output filename.  Container reprs are placeholders (no claim renders one);
for numbers, Python prints the shortest float repr, which agrees with the
rendering here on integral values — no claim depends on the digits of a
non-integral number. -/
def pyStr : Json → PyStr
  | .null => pystr "None"
  | .bool b => if b then pystr "True" else pystr "False"
  | .str s => s
  | .num q =>
    if q.den = 1 then
      (if q.num < 0 then pystr "-" else []) ++ natDigits q.num.natAbs ++ pystr ".0"
    else
      (if q.num < 0 then pystr "-" else []) ++ natDigits q.num.natAbs
        ++ pystr "/" ++ natDigits q.den
  | .arr _ => pystr "[...]"
  | .obj _ => pystr "dict"

/-! ## Data model: `Spectral` and `Rids` -/

/-- `Spectral` (rids.py lines 10–15).  `comment`, `polarization`, `freq`,
`val` always exist on the Python object (set in `__init__`); `ave` and
`maxhold` exist only once assigned (`none` models the absent attribute,
whose access raises `AttributeError`). -/
structure Spectral where
  comment : Json
  polarization : Json
  freq : Json
  val : Json
  ave : Option Json
  maxhold : Option Json

/-- `Spectral(polarization=pol, comment='')` -/
def Spectral.init (pol : PyStr) : Spectral :=
  { comment := .str [], polarization := .str pol,
    freq := .arr [], val := .arr [], ave := none, maxhold := none }

/-- The `Rids` aggregate (rids.py lines 48–68).  Attribute slots are
dynamically typed in Python, hence `Json`-valued here (`null` = `None`).
`hipk_freq`/`hipk_val` do not exist on the Python object until
`peak_finder` first runs; they are modelled with list defaults since no
modelled code path reads them before assignment. -/
structure Rids where
  instrument : Json
  receiver : Json
  channel_width : Json
  channel_width_unit : Json
  vbw : Json
  vbw_unit : Json
  time_constant : Json
  time_constant_unit : Json
  threshold : Json
  threshold_unit : Json
  freq_unit : Json
  val_unit : Json
  comment : Json
  time_stamp : Json
  calE : Spectral
  calN : Spectral
  events : List (PyStr × Spectral)
  hipk : Option (List ℕ)
  hipk_freq : List ℚ
  hipk_val : List ℚ

/-- `Rids.__init__(comment=None)`. -/
def Rids.init : Rids :=
  { instrument := .null, receiver := .null,
    channel_width := .null, channel_width_unit := .null,
    vbw := .null, vbw_unit := .null,
    time_constant := .null, time_constant_unit := .null,
    threshold := .null, threshold_unit := .null,
    freq_unit := .null, val_unit := .null,
    comment := .null, time_stamp := .null,
    calE := Spectral.init (pystr "E"), calN := Spectral.init (pystr "N"),
    events := [], hipk := none, hipk_freq := [], hipk_val := [] }

/-- `Rids.cal[pol]` -/
def Rids.cal (r : Rids) : Pol → Spectral
  | .E => r.calE
  | .N => r.calN

def Rids.setCal (r : Rids) : Pol → Spectral → Rids
  | .E, sp => { r with calE := sp }
  | .N, sp => { r with calN := sp }

/-- The direct attributes, `dattr = ['instrument', 'receiver', 'time_stamp',
'freq_unit', 'val_unit']`. -/
inductive DAttr where
  | instrument | receiver | time_stamp | freq_unit | val_unit
deriving DecidableEq

/-- Source order of `Rids.dattr`. -/
def dattrList : List DAttr :=
  [.instrument, .receiver, .time_stamp, .freq_unit, .val_unit]

def DAttr.name : DAttr → PyStr
  | .instrument => pystr "instrument"
  | .receiver => pystr "receiver"
  | .time_stamp => pystr "time_stamp"
  | .freq_unit => pystr "freq_unit"
  | .val_unit => pystr "val_unit"

def Rids.getD (r : Rids) : DAttr → Json
  | .instrument => r.instrument
  | .receiver => r.receiver
  | .time_stamp => r.time_stamp
  | .freq_unit => r.freq_unit
  | .val_unit => r.val_unit

def Rids.setD (r : Rids) : DAttr → Json → Rids
  | .instrument, v => { r with instrument := v }
  | .receiver, v => { r with receiver := v }
  | .time_stamp, v => { r with time_stamp := v }
  | .freq_unit, v => { r with freq_unit := v }
  | .val_unit, v => { r with val_unit := v }

/-- The unit-split attributes, `uattr = ['channel_width', 'time_constant',
'threshold', 'vbw']`. -/
inductive UAttr where
  | channel_width | time_constant | threshold | vbw
deriving DecidableEq

/-- Source order of `Rids.uattr`. -/
def uattrList : List UAttr :=
  [.channel_width, .time_constant, .threshold, .vbw]

def UAttr.name : UAttr → PyStr
  | .channel_width => pystr "channel_width"
  | .time_constant => pystr "time_constant"
  | .threshold => pystr "threshold"
  | .vbw => pystr "vbw"

def Rids.getU (r : Rids) : UAttr → Json
  | .channel_width => r.channel_width
  | .time_constant => r.time_constant
  | .threshold => r.threshold
  | .vbw => r.vbw

/-- `getattr(self, d + '_unit')` -/
def Rids.getUnit (r : Rids) : UAttr → Json
  | .channel_width => r.channel_width_unit
  | .time_constant => r.time_constant_unit
  | .threshold => r.threshold_unit
  | .vbw => r.vbw_unit

def Rids.setU (r : Rids) : UAttr → Json → Rids
  | .channel_width, v => { r with channel_width := v }
  | .time_constant, v => { r with time_constant := v }
  | .threshold, v => { r with threshold := v }
  | .vbw, v => { r with vbw := v }

/-- `setattr(self, d + '_unit', d1)` -/
def Rids.setUnit (r : Rids) : UAttr → Json → Rids
  | .channel_width, v => { r with channel_width_unit := v }
  | .time_constant, v => { r with time_constant_unit := v }
  | .threshold, v => { r with threshold_unit := v }
  | .vbw, v => { r with vbw_unit := v }

/-- `Rids._set_uattr(d, x)` (rids.py lines 102–114).  `x.split()` requires a
string (`AttributeError` otherwise); when the split yields no token, both
`d0` and `d1` are unbound at the trailing `setattr` calls, raising
`UnboundLocalError` (the zero-token case has no branch). -/
def Rids.set_uattr (r : Rids) (u : UAttr) (x : Json) : Except PyError Rids :=
  match x with
  | .str s =>
    match pySplitWs s with
    | [t] => .ok ((r.setU u (.str t)).setUnit u .null)
    | t1 :: t2 :: _ =>
      let d0 : Json :=
        match pyFloat? t1 with
        | some q => .num q
        | none => .str t1
      .ok ((r.setU u d0).setUnit u (.str t2))
    | [] => .error .unboundLocal
  | _ => .error .attributeError

/-- `Rids.append_comment(comment)` (rids.py lines 159–165).  `None` is a
no-op; with no existing comment the new one is stored verbatim (whatever its
type); otherwise Python evaluates `self.comment += ('\n' + comment)`, which
raises `TypeError` unless both are strings. -/
def Rids.append_comment (r : Rids) (c : Json) : Except PyError Rids :=
  match c with
  | .null => .ok r
  | c =>
    match r.comment with
    | .null => .ok { r with comment := c }
    | old =>
      match c, old with
      | .str cs, .str os => .ok { r with comment := .str (os ++ pystr "\n" ++ cs) }
      | _, _ => .error .typeError

/-- `Rids.set(**kwargs)` (rids.py lines 152–157): recognized direct names are
set verbatim, recognized unit-split names go through `_set_uattr`, anything
else is silently ignored. -/
def Rids.set (r : Rids) (kwargs : List (PyStr × Json)) : Except PyError Rids :=
  kwargs.foldlM
    (fun r kv =>
      match dattrList.find? (fun d => d.name = kv.1) with
      | some d => .ok (r.setD d kv.2)
      | none =>
        match uattrList.find? (fun u => u.name = kv.1) with
        | some u => r.set_uattr u kv.2
        | none => .ok r)
    r

/-! ## JSON access with Python semantics -/

/-- Python `==` between a JSON value and a string (used by `in` on lists);
only string/string compares can be true. -/
def jsonEqStr (j : Json) (s : PyStr) : Bool :=
  match j with
  | .str t => t = s
  | _ => false

/-- Python `key in data`: key lookup on a dict, membership on a list,
substring test on a string, `TypeError` otherwise. -/
def jsonContains (j : Json) (key : PyStr) : Except PyError Bool :=
  match j with
  | .obj fs => .ok (fs.any (fun kv => kv.1 = key))
  | .arr xs => .ok (xs.any (fun x => jsonEqStr x key))
  | .str s => .ok (hasSub key s)
  | _ => .error .typeError

/-- Python `data[key]` with a string key: dict lookup (`KeyError` when
missing); lists and strings reject string subscripts with `TypeError`. -/
def jsonGet (j : Json) (key : PyStr) : Except PyError Json :=
  match j with
  | .obj fs =>
    match fs.lookup key with
    | some v => .ok v
    | none => .error .keyError
  | _ => .error .typeError

/-! ## Spectral fields, reader and writer -/

/-- `Rids.spectral_fields = ['comment', 'polarization', 'freq', 'val', 'ave',
'maxhold']`. -/
inductive SField where
  | comment | polarization | freq | val | ave | maxhold
deriving DecidableEq

/-- Source order of `Rids.spectral_fields`. -/
def sfieldList : List SField :=
  [.comment, .polarization, .freq, .val, .ave, .maxhold]

def SField.name : SField → PyStr
  | .comment => pystr "comment"
  | .polarization => pystr "polarization"
  | .freq => pystr "freq"
  | .val => pystr "val"
  | .ave => pystr "ave"
  | .maxhold => pystr "maxhold"

/-- `setattr(spectral, field, v)` -/
def Spectral.setSF (sp : Spectral) : SField → Json → Spectral
  | .comment, v => { sp with comment := v }
  | .polarization, v => { sp with polarization := v }
  | .freq, v => { sp with freq := v }
  | .val, v => { sp with val := v }
  | .ave, v => { sp with ave := some v }
  | .maxhold, v => { sp with maxhold := some v }

/-- `getattr(spectral, field)`; `none` models the `AttributeError` the
writer's `try`/`except` swallows for a never-assigned `ave`/`maxhold`. -/
def Spectral.getSF (sp : Spectral) : SField → Option Json
  | .comment => some sp.comment
  | .polarization => some sp.polarization
  | .freq => some sp.freq
  | .val => some sp.val
  | .ave => sp.ave
  | .maxhold => sp.maxhold

/-- Insert-or-replace in the `events` dict: an existing key keeps its
position (CPython dict update semantics), a new key is appended. -/
def insertEvent (evs : List (PyStr × Spectral)) (name : PyStr) (sp : Spectral) :
    List (PyStr × Spectral) :=
  if evs.any (fun kv => kv.1 = name) then
    evs.map (fun kv => if kv.1 = name then (name, sp) else kv)
  else
    evs ++ [(name, sp)]

/-- Lookup in the `events` dict. -/
def lookupEvent (evs : List (PyStr × Spectral)) (name : PyStr) : Option Spectral :=
  (evs.find? (fun kv => kv.1 = name)).map Prod.snd

/-- The inner loop shared by the `cal` and `events` sections of `rid_reader`:
`for v in spectral_fields: if v in pd: setattr(sp, v, pd[v])`. -/
def readSpectralFields (pd : Json) (sp : Spectral) : Except PyError Spectral :=
  sfieldList.foldlM
    (fun sp v => do
      let hv ← jsonContains pd v.name
      if hv then do
        let x ← jsonGet pd v.name
        pure (sp.setSF v x)
      else
        pure sp)
    sp

/-- Source order of `Rids.polarizations = ['E', 'N']`. -/
def polList : List Pol := [.E, .N]

/-- `Rids.rid_reader(filename)` (rids.py lines 70–100), modelled on the
decoded JSON value; `none` stands for a source whose `json.load` raises
(malformed text or gzip container), which happens before any merge touches
the document.  A decoded `events` value that is not a dict is modelled as
`TypeError` unless it is empty (iterating an empty list or string performs no
iterations); the corner where a non-empty non-dict is iterated and then
subscripted is conflated with `TypeError`, which is what Python raises for
every such shape a JSON decode can produce except a list of valid integer
indices into itself — a corner no claim goes near. -/
def Rids.rid_reader (r : Rids) (decoded : Option Json) : Except PyError Rids := do
  match decoded with
  | none => .error .formatError
  | some data =>
    let hasC ← jsonContains data (pystr "comment")
    let r ← if hasC then do
        let c ← jsonGet data (pystr "comment")
        r.append_comment c
      else pure r
    let r ← dattrList.foldlM
      (fun (r : Rids) d => do
        let h ← jsonContains data d.name
        if h then do
          let v ← jsonGet data d.name
          pure (r.setD d v)
        else pure r)
      r
    let r ← uattrList.foldlM
      (fun (r : Rids) u => do
        let h ← jsonContains data u.name
        if h then do
          let v ← jsonGet data u.name
          r.set_uattr u v
        else pure r)
      r
    let hasCal ← jsonContains data (pystr "cal")
    let r ← if hasCal then do
        let calData ← jsonGet data (pystr "cal")
        polList.foldlM
          (fun (r : Rids) pol => do
            let hp ← jsonContains calData pol.code
            if hp then do
              let pd ← jsonGet calData pol.code
              let sp ← readSpectralFields pd (r.cal pol)
              pure (r.setCal pol sp)
            else pure r)
          r
      else pure r
    let hasEv ← jsonContains data (pystr "events")
    if hasEv then do
      let evData ← jsonGet data (pystr "events")
      match evData with
      | .obj fs =>
        fs.foldlM
          (fun (r : Rids) kv => do
            let pd ← jsonGet evData kv.1
            let sp ← readSpectralFields pd (Spectral.init [])
            pure { r with events := insertEvent r.events kv.1 sp })
          r
      | .arr [] => pure r
      | .str [] => pure r
      | _ => .error .typeError
    else pure r

/-- Total order used by `json.dumps(sort_keys=True)` on (ASCII) keys. -/
def strLe : List Char → List Char → Bool
  | [], _ => true
  | _ :: _, [] => false
  | a :: as, b :: bs => if a = b then strLe as bs else decide (a < b)

def insertPairSorted (kv : PyStr × Json) : List (PyStr × Json) → List (PyStr × Json)
  | [] => [kv]
  | p :: t => if strLe kv.1 p.1 then kv :: p :: t else p :: insertPairSorted kv t

/-- Insertion sort of dict entries by key. -/
def sortPairs : List (PyStr × Json) → List (PyStr × Json)
  | [] => []
  | kv :: t => insertPairSorted kv (sortPairs t)

/-- One `ds['cal'][pol]` / `ds['events'][name]` entry of `rid_writer`: the
`try`/`except AttributeError` loop over `spectral_fields`, emitted directly in
the sorted key order `json.dumps(sort_keys=True)` produces
(ave < comment < freq < maxhold < polarization < val). -/
def spectralToJson (sp : Spectral) : Json :=
  .obj ((match sp.ave with | some a => [(pystr "ave", a)] | none => [])
    ++ [(pystr "comment", sp.comment), (pystr "freq", sp.freq)]
    ++ (match sp.maxhold with | some m => [(pystr "maxhold", m)] | none => [])
    ++ [(pystr "polarization", sp.polarization), (pystr "val", sp.val)])

/-- `ds[d] = "{} {}".format(getattr(self, d), getattr(self, d + '_unit'))` -/
def uattrRendered (r : Rids) (u : UAttr) : Json :=
  .str (pyStr (r.getU u) ++ pystr " " ++ pyStr (r.getUnit u))

/-- `Rids.rid_writer(filename)` (rids.py lines 116–150), modelled as the JSON
value serialized to the destination.  `json.dumps(sort_keys=True)` emits every
dict with its keys sorted; the dicts assembled by `rid_writer` are therefore
written here directly in sorted key order (the `events` dict, whose keys are
dynamic, through `sortPairs`).  Key sorting inside opaque attribute payloads
is not modelled: it is visible only for an object-valued header field, which
no claim and no documented lifecycle produces.  The `fix_json_list` post-pass
is cosmetic whitespace (spec §6) and the gzip-vs-plain choice does not change
the payload, so neither is modelled. -/
def Rids.rid_writer (r : Rids) : Json :=
  .obj
    [(pystr "cal", .obj [(pystr "E", spectralToJson r.calE),
                         (pystr "N", spectralToJson r.calN)]),
     (pystr "channel_width", uattrRendered r .channel_width),
     (pystr "comment", r.comment),
     (pystr "events", .obj (sortPairs (r.events.map
        (fun kv => (kv.1, spectralToJson kv.2))))),
     (pystr "freq_unit", r.freq_unit),
     (pystr "instrument", r.instrument),
     (pystr "receiver", r.receiver),
     (pystr "threshold", uattrRendered r .threshold),
     (pystr "time_constant", uattrRendered r .time_constant),
     (pystr "time_stamp", r.time_stamp),
     (pystr "val_unit", r.val_unit),
     (pystr "vbw", uattrRendered r .vbw)]

/-! ## Peak extraction and event building -/

/-- Contract type of the external `peaks.fp(values, threshold, cwt_range,
rc_range)` collaborator (spec §4.3): detected peak indices into `values`.
The threshold slot carries whatever `self.threshold` holds. -/
abbrev PeakFn := List ℚ → Json → ℕ × ℕ → ℕ × ℕ → List ℕ

/-- Contract type of the external `rids_utils.spectrum_reader` collaborator
(spec §6): `readSpectrum(path, polarization) -> (freq[], val[])`. -/
abbrev SpectrumReader := PyStr → Pol → List ℚ × List ℚ

/-- Default `cwt_range=[1, 7]` of `Rids.peak_finder`. -/
def cwt_range : ℕ × ℕ := (1, 7)

/-- Default `rc_range=[4, 4]` of `Rids.peak_finder`. -/
def rc_range : ℕ × ℕ := (4, 4)

/-- `Rids.peak_finder(spec)` (rids.py lines 186–189), on the `freq`/`val`
arrays of the spectrum it is handed; always called with the default ranges. -/
def Rids.peak_finder (fp : PeakFn) (r : Rids) (freq val : List ℚ) : Rids :=
  { r with hipk_freq := freq, hipk_val := val,
           hipk := some (fp val r.threshold cwt_range rc_range) }

/-- NumPy fancy indexing `list(np.array(xs)[idx])`: the selected sublist when
every index is in bounds, `none` for the `IndexError`.  (Negative indices,
which the PeakExtractor contract rules out, are not representable.) -/
def selectAt (xs : List ℚ) (idx : List ℕ) : Option (List ℚ) :=
  if idx.all (fun i => decide (i < xs.length)) then
    some (idx.map (fun i => xs.getD i 0))
  else none

/-- `Rids.get_event(event, ave_fn, maxhold_fn, polarization)` (rids.py lines
167–184).  The Python code first stores a fresh `Spectral` under
`events[event]` and then mutates it field by field; on success this equals
inserting the finished record once, which is how it is modelled (on an
uncaught `IndexError` the partially filled record is discarded together with
the rest of the state, see the module comment).  In the peak branch the
`ave` selection sits in a `try`/`except IndexError: pass`, the `freq` and
`maxhold` selections do not. -/
def Rids.get_event (fp : PeakFn) (readSpectrum : SpectrumReader)
    (r : Rids) (event : PyStr) (ave_fn maxhold_fn : PyStr) (pol : Pol) :
    Except PyError Rids :=
  let aSpec := readSpectrum ave_fn pol
  let mSpec := readSpectrum maxhold_fn pol
  if hasSub (pystr "baseline") (pyLower event) then
    .ok { r with events := (insertEvent r.events event
      { comment := .str [], polarization := .str pol.code,
         freq := .arr ((if aSpec.1.length > mSpec.1.length then aSpec.1
                        else mSpec.1).map .num),
         val := .arr [],
         ave := some (.arr (aSpec.2.map .num)),
         maxhold := some (.arr (mSpec.2.map .num)) }) }
  else
    let hipk := fp mSpec.2 r.threshold cwt_range rc_range
    let r := r.peak_finder fp mSpec.1 mSpec.2
    match selectAt mSpec.1 hipk with
    | none => .error .indexError
    | some selFreq =>
      let aveSel := selectAt aSpec.2 hipk
      match selectAt mSpec.2 hipk with
      | none => .error .indexError
      | some selMax =>
        .ok { r with events := (insertEvent r.events event
          { comment := .str [], polarization := .str pol.code,
             freq := .arr (selFreq.map .num),
             val := .arr [],
             ave := (aveSel.map (fun l => Json.arr (l.map .num))),
             maxhold := some (.arr (selMax.map .num)) }) }

/-! ## The ingestion pipeline (`process_files`) -/

/-- Qualifying file types recognized by `process_files`. -/
inductive FType where
  | ave | maxh
deriving DecidableEq

/-- Contract type of the external `rids_utils.peel_type_polarization`
collaborator (spec §6): `classify(filename) -> (fileType, polarization)`,
`none` standing for any result whose type is not in `['ave', 'maxh']`. -/
abbrev ClassifyFn := PyStr → Option (FType × Pol)

/-- Contract type of the external `rids_utils.peel_time_stamp` collaborator
(spec §6): `extractTimeStamp(filename) -> string`. -/
abbrev TimeStampFn := PyStr → PyStr

/-- The per-type, per-polarization path lists `f` accumulated by one scan
(`f = {'ave': {'E': [], 'N': []}, 'maxh': {'E': [], 'N': []}}`). -/
structure FileLists where
  aveE : List PyStr
  aveN : List PyStr
  maxhE : List PyStr
  maxhN : List PyStr

def FileLists.empty : FileLists := ⟨[], [], [], []⟩

/-- `f[ftype][pol]` -/
def FileLists.get (f : FileLists) : FType → Pol → List PyStr
  | .ave, .E => f.aveE
  | .ave, .N => f.aveN
  | .maxh, .E => f.maxhE
  | .maxh, .N => f.maxhN

/-- `f[ftype][pol].append(path)` -/
def FileLists.push (f : FileLists) : FType → Pol → PyStr → FileLists
  | .ave, .E, p => { f with aveE := f.aveE ++ [p] }
  | .ave, .N, p => { f with aveN := f.aveN ++ [p] }
  | .maxh, .E, p => { f with maxhE := f.maxhE ++ [p] }
  | .maxh, .N, p => { f with maxhN := f.maxhN ++ [p] }

/-- Insertion step of the lexicographic sort modelling
`sorted(os.listdir(directory))`. -/
def insertSorted (a : PyStr) : List PyStr → List PyStr
  | [] => [a]
  | b :: t => if strLe a b then a :: b :: t else b :: insertSorted a t

/-- `sorted(os.listdir(directory))`: the directory listing in lexicographic
order.  The filesystem is modelled as the list of file names in the one
scanned directory; `os.path.join` with the fixed directory prefix is the
identity of this model (it renames every path by the same prefix, which the
collaborator parameters absorb). -/
def sortFiles : List PyStr → List PyStr
  | [] => []
  | a :: t => insertSorted a (sortFiles t)

/-- The classification loop of one scan (rids.py lines 227–231): walk the
sorted listing, append qualifying paths per type and polarization, and set
the continue flag whenever a qualifying file is seen. -/
def classifyFiles (classify : ClassifyFn) (files : List PyStr) : FileLists × Bool :=
  files.foldl
    (fun acc af =>
      match classify af with
      | some tp => (acc.1.push tp.1 tp.2 af, true)
      | none => acc)
    (FileLists.empty, false)

/-- `os.remove(path)`: fails when the file is absent. -/
def osRemove (fs : List PyStr) (a : PyStr) : Except PyError (List PyStr) :=
  if a ∈ fs then .ok (fs.erase a) else .error .fileNotFound

/-- The obs batch loop of `process_files` (rids.py lines 240–244): for each
positional `(ave, maxh)` pair, build a peak event named by the pair's time
stamp plus the polarization code, then delete both source files. -/
def processBatch (fp : PeakFn) (readSpectrum : SpectrumReader)
    (peelTS : TimeStampFn) (pol : Pol) :
    List (PyStr × PyStr) → Rids → List PyStr → Except PyError (Rids × List PyStr)
  | [], r, fs => .ok (r, fs)
  | (a, m) :: rest, r, fs => do
    let time_stamp := peelTS a ++ pol.code
    let r ← r.get_event fp readSpectrum time_stamp a m pol
    let fs ← osRemove fs a
    let fs ← osRemove fs m
    processBatch fp readSpectrum peelTS pol rest r fs

/-- The per-polarization body of one scan cycle (rids.py lines 232–244):
skip silently when either list is empty or the lengths differ; otherwise set
`time_stamp` from the first `ave` path, build the baseline event from the
first `(ave, maxh)` pair, and run the obs batch over
`zip(f['ave'][pol][:obs_per_file], f['maxh'][pol][:obs_per_file])` — a slice
that starts at index 0 and therefore includes the baseline pair. -/
def processPol (fp : PeakFn) (readSpectrum : SpectrumReader)
    (peelTS : TimeStampFn) (obs_per_file : ℕ) (pol : Pol)
    (aveL maxhL : List PyStr) (r : Rids) (fs : List PyStr) :
    Except PyError (Rids × List PyStr) :=
  match aveL, maxhL with
  | [], _ => .ok (r, fs)
  | _, [] => .ok (r, fs)
  | a0 :: _, m0 :: _ =>
    if aveL.length ≠ maxhL.length then .ok (r, fs)
    else do
      let r ← r.set [(pystr "time_stamp", .str (peelTS a0))]
      let r ← r.get_event fp readSpectrum (pystr "baseline_" ++ pol.code) a0 m0 pol
      processBatch fp readSpectrum peelTS pol
        (List.zip (aveL.take obs_per_file) (maxhL.take obs_per_file)) r fs

/-- `str(self.time_stamp) + '.ridz'`, the per-cycle output file name. -/
def outputName (r : Rids) : PyStr := pyStr r.time_stamp ++ pystr ".ridz"

/-- Writing a file: its name becomes present in the directory (an existing
same-named file is overwritten, leaving the listing unchanged). -/
def writeFile (fs : List PyStr) (name : PyStr) : List PyStr :=
  if name ∈ fs then fs else name :: fs

/-- One scan cycle of `Rids.process_files` (rids.py lines 220–246 inside the
loop): list and classify the directory, process each polarization in source
order `['E', 'N']`, then write the accumulated document to
`str(self.time_stamp) + '.ridz'` inside the scanned directory.  Returns the
continue flag together with the document and filesystem states.  Writing is
modelled as making the output name present in the directory (overwriting a
same-named file leaves the listing unchanged); `rid_writer` itself cannot
raise on this path. -/
def processCycle (classify : ClassifyFn) (fp : PeakFn)
    (readSpectrum : SpectrumReader) (peelTS : TimeStampFn)
    (obs_per_file : ℕ) (r : Rids) (fs : List PyStr) :
    Except PyError (Rids × List PyStr × Bool) := do
  let scan := classifyFiles classify (sortFiles fs)
  let f := scan.1
  let loop := scan.2
  let st ← processPol fp readSpectrum peelTS obs_per_file .E
    (f.get .ave .E) (f.get .maxh .E) r fs
  let st ← processPol fp readSpectrum peelTS obs_per_file .N
    (f.get .ave .N) (f.get .maxh .N) st.1 st.2
  .ok (st.1, writeFile st.2 (outputName st.1), loop)

/-- The `while` loop of `process_files` (rids.py lines 217–226): the counter
guard `max_loop_ctr > max_loops` permits at most `max_loops` executions of
the cycle body, so the loop is modelled by structural recursion on the
remaining allowance.  The returned list records each executed cycle's
continue flag. -/
def runLoop (classify : ClassifyFn) (fp : PeakFn)
    (readSpectrum : SpectrumReader) (peelTS : TimeStampFn) (obs_per_file : ℕ) :
    ℕ → Rids → List PyStr → Except PyError (List Bool × Rids × List PyStr)
  | 0, r, fs => .ok ([], r, fs)
  | fuel + 1, r, fs => do
    let st ← processCycle classify fp readSpectrum peelTS obs_per_file r fs
    if st.2.2 then do
      let rest ← runLoop classify fp readSpectrum peelTS obs_per_file fuel st.1 st.2.1
      .ok (st.2.2 :: rest.1, rest.2)
    else
      .ok ([st.2.2], st.1, st.2.1)

/-- `Rids.process_files(directory, obs_per_file=100, max_loops=1000)`
(rids.py lines 216–246). -/
def Rids.process_files (classify : ClassifyFn) (fp : PeakFn)
    (readSpectrum : SpectrumReader) (peelTS : TimeStampFn)
    (r : Rids) (fs : List PyStr) (obs_per_file : ℕ := 100)
    (max_loops : ℕ := 1000) : Except PyError (List Bool × Rids × List PyStr) :=
  runLoop classify fp readSpectrum peelTS obs_per_file max_loops r fs

/-! ## Sample collaborator instances (used by witnesses and counterexamples) -/

/-- Sample filename classifier: names starting `a` are `ave`/E files, names
starting `m` are `maxh`/E files, names starting `b` are `ave`/N, names
starting `n` are `maxh`/N, anything else is unrecognized. -/
def sampleClassify : ClassifyFn
  | 'a' :: _ => some (.ave, .E)
  | 'm' :: _ => some (.maxh, .E)
  | 'b' :: _ => some (.ave, .N)
  | 'n' :: _ => some (.maxh, .N)
  | _ => none

/-- Sample time-stamp extractor: everything after the leading type letter. -/
def sampleTS : TimeStampFn := fun s => s.tail

/-- Sample spectrum reader: every file holds a one-sample spectrum. -/
def sampleRead : SpectrumReader := fun _ _ => ([1], [2])

/-- Sample peak extractor finding no peaks. -/
def sampleFp : PeakFn := fun _ _ _ _ => []

/-- Sample peak extractor reporting index 0. -/
def sampleFp0 : PeakFn := fun _ _ _ _ => [0]

/-- Sample spectrum reader whose `ave` spectra have an empty value array
(shorter than any detected peak index). -/
def sampleReadShort : SpectrumReader := fun fn _ =>
  match fn with
  | 'a' :: _ => ([1], [])
  | _ => ([1], [2])

/-- A concrete document with only the direct fields and the two calibration
records set (comment, unit-split fields, events unset — the scenario of the
round-trip property). -/
def sampleDoc : Rids :=
  { Rids.init with
    instrument := .str (pystr "SpecMonitor"),
    receiver := .str (pystr "rx1"),
    time_stamp := .str (pystr "2019-02-01"),
    freq_unit := .str (pystr "MHz"),
    val_unit := .str (pystr "dBm"),
    calE := { comment := .str [], polarization := .str (pystr "E"),
              freq := .arr [.num 1, .num 2], val := .arr [.num 3, .num 4],
              ave := none, maxhold := none },
    calN := { comment := .str [], polarization := .str (pystr "N"),
              freq := .arr [.num 5], val := .arr [.num 6],
              ave := none, maxhold := none } }

/-! ## Claim theorems -/

/-- C9: for every document, appending comment `None` is a no-op (the stored
comment — indeed the whole document — is unchanged), appending a comment to
a document with no existing comment stores it verbatim, appending to an
existing comment joins the two with a newline, and appending `"a"` then
`"b"` to an empty comment yields `"a\nb"`. -/
theorem append_comment_spec (r : Rids) (a b c : PyStr) :
    (r.append_comment .null = .ok r) ∧
    (r.comment = .null →
      r.append_comment (.str a) = .ok { r with comment := .str a }) ∧
    (r.comment = .str c →
      r.append_comment (.str b)
        = .ok { r with comment := .str (c ++ pystr "\n" ++ b) }) ∧
    (r.comment = .null →
      (do
        let r1 ← r.append_comment (.str (pystr "a"))
        r1.append_comment (.str (pystr "b")))
      = .ok { r with comment := .str (pystr "a\nb") }) := by
  refine ⟨rfl, ?_, ?_, ?_⟩
  · intro h
    simp [Rids.append_comment, h]
  · intro h
    simp [Rids.append_comment, h]
  · intro h
    simp only [Rids.append_comment, h]
    rfl

/-- Witness for `append_comment_spec` at a concrete document. -/
theorem append_comment_spec_witness :
    (Rids.init.append_comment .null = .ok Rids.init) ∧
    (Rids.init.append_comment (.str (pystr "hello"))
      = .ok { Rids.init with comment := .str (pystr "hello") }) ∧
    ({ Rids.init with comment := .str (pystr "x") }.append_comment (.str (pystr "y"))
      = .ok { Rids.init with comment := .str (pystr "x\ny") }) ∧
    ((do
        let r1 ← Rids.init.append_comment (.str (pystr "a"))
        r1.append_comment (.str (pystr "b")))
      = .ok { Rids.init with comment := .str (pystr "a\nb") }) := by
  obtain ⟨w1, w2, w3, w4⟩ :=
    append_comment_spec Rids.init (pystr "hello") (pystr "y") (pystr "x")
  refine ⟨w1, w2 rfl, ?_, ?_⟩
  · have := (append_comment_spec { Rids.init with comment := .str (pystr "x") }
      (pystr "hello") (pystr "y") (pystr "x")).2.2.1 rfl
    simpa [pystr] using this
  · exact (append_comment_spec Rids.init (pystr "hello") (pystr "y") (pystr "x")).2.2.2 rfl

/-- C10: a unit-split field ingested from a string whose whitespace split
yields zero tokens (the empty or all-whitespace string) makes `_set_uattr`
raise from the unbound locals `d0`/`d1` instead of setting the field or its
unit — both directly and when reached through `set()`; the zero-token case
is unhandled. -/
theorem set_uattr_zero_tokens (r : Rids) (u : UAttr) (s : PyStr)
    (h : pySplitWs s = []) :
    r.set_uattr u (.str s) = .error .unboundLocal ∧
    r.set [(u.name, .str s)] = .error .unboundLocal := by
  constructor
  · simp [Rids.set_uattr, h]
  · cases u <;>
      simp [Rids.set, Rids.set_uattr, h, dattrList, uattrList, DAttr.name,
        UAttr.name, pystr, List.find?]

/-- Witness for `set_uattr_zero_tokens`: the empty string. -/
theorem set_uattr_zero_tokens_witness :
    pySplitWs (pystr "") = [] ∧
    Rids.init.set_uattr .channel_width (.str (pystr "")) = .error .unboundLocal ∧
    Rids.init.set [(UAttr.name .channel_width, .str (pystr ""))]
      = .error .unboundLocal := by
  obtain ⟨w1, w2⟩ := set_uattr_zero_tokens Rids.init .channel_width (pystr "") rfl
  exact ⟨rfl, w1, w2⟩

/-- `float("12.5")` evaluates to the rational 25/2. -/
theorem pyFloat_12_5 : pyFloat? (pystr "12.5") = some (25 / 2) := by
  have h1 : natOfDigits ['1', '2'] = 12 := rfl
  have h2 : natOfDigits ['5'] = 5 := rfl
  have hs : pyFloat? (pystr "12.5")
      = some ((natOfDigits ['1', '2'] : ℚ) + (natOfDigits ['5'] : ℚ) / (10 : ℚ) ^ (1 : ℕ)) := rfl
  rw [hs, h1, h2]
  norm_num

/-- C5: a unit-split header field ingested from a descriptive string is split
on whitespace; one token becomes the value with the unit unset; with several
tokens the first is parsed as a number when possible (kept a string
otherwise) and becomes the value while the second becomes the unit — in
particular `"12.5 MHz"` gives numeric value 12.5 with unit `"MHz"`, and
`"ongoing maxhold"` gives string value `"ongoing"` with unit `"maxhold"`. -/
theorem set_uattr_unit_split (r : Rids) (u : UAttr) (s t t1 t2 : PyStr)
    (rest : List PyStr) :
    (pySplitWs s = [t] →
      r.set_uattr u (.str s) = .ok ((r.setU u (.str t)).setUnit u .null)) ∧
    (pySplitWs s = t1 :: t2 :: rest →
      r.set_uattr u (.str s)
        = .ok ((r.setU u (match pyFloat? t1 with
            | some q => .num q
            | none => .str t1)).setUnit u (.str t2))) ∧
    (r.set_uattr u (.str (pystr "12.5 MHz"))
      = .ok ((r.setU u (.num (25 / 2))).setUnit u (.str (pystr "MHz")))) ∧
    (r.set_uattr u (.str (pystr "ongoing maxhold"))
      = .ok ((r.setU u (.str (pystr "ongoing"))).setUnit u (.str (pystr "maxhold")))) := by
  refine ⟨?_, ?_, ?_, rfl⟩
  · intro h
    simp [Rids.set_uattr, h]
  · intro h
    simp [Rids.set_uattr, h]
  · have hsplit : pySplitWs (pystr "12.5 MHz") = [pystr "12.5", pystr "MHz"] := rfl
    simp [Rids.set_uattr, hsplit, pyFloat_12_5]

/-- Witness for `set_uattr_unit_split`: concrete one-token and two-token
splits on a concrete document. -/
theorem set_uattr_unit_split_witness :
    (Rids.init.set_uattr .vbw (.str (pystr "ongoing"))
      = .ok ((Rids.init.setU .vbw (.str (pystr "ongoing"))).setUnit .vbw .null)) ∧
    (Rids.init.set_uattr .time_constant (.str (pystr "ongoing maxhold"))
      = .ok ((Rids.init.setU .time_constant
          (.str (pystr "ongoing"))).setUnit .time_constant (.str (pystr "maxhold")))) ∧
    (Rids.init.set_uattr .channel_width (.str (pystr "12.5 MHz"))
      = .ok ((Rids.init.setU .channel_width
          (.num (25 / 2))).setUnit .channel_width (.str (pystr "MHz")))) := by
  obtain ⟨w1, w2, w3, w4⟩ := set_uattr_unit_split Rids.init .vbw (pystr "ongoing")
    (pystr "ongoing") (pystr "ongoing") (pystr "maxhold") []
  refine ⟨w1 rfl, ?_, ?_⟩
  · have h := (set_uattr_unit_split Rids.init .time_constant (pystr "ongoing maxhold")
      (pystr "ongoing") (pystr "ongoing") (pystr "maxhold") []).2.2.2
    exact h
  · exact (set_uattr_unit_split Rids.init .channel_width (pystr "12.5 MHz")
      (pystr "12.5") (pystr "12.5") (pystr "MHz") []).2.2.1

/-- C3 (amended): a load whose container decode fails aborts with the
FormatError before any merge, leaving the document unmodified; but a decoded
top level that is not an object is not reliably rejected — an empty array is
accepted silently as a no-op load, while (for instance) a bare number fails
with a `TypeError`, not the FormatError. -/
theorem rid_reader_failure (r : Rids) (q : ℚ) :
    (r.rid_reader none = .error .formatError) ∧
    (r.rid_reader (some (.arr [])) = .ok r) ∧
    (r.rid_reader (some (.num q)) = .error .typeError) := by
  refine ⟨rfl, rfl, rfl⟩

/-- C3 counterexample: the claim requires every source whose decoded top
level is not an object to fail with the FormatError, but a decoded empty
array is accepted: the load returns successfully (and changes nothing). -/
theorem rid_reader_failure_counterexample :
    Rids.init.rid_reader (some (.arr [])) = .ok Rids.init := rfl

/-! ## Event-map lemmas -/

theorem lookupEvent_insertEvent_self (evs : List (PyStr × Spectral))
    (n : PyStr) (sp : Spectral) :
    lookupEvent (insertEvent evs n sp) n = some sp := by
  unfold insertEvent lookupEvent
  by_cases h : evs.any (fun kv => kv.1 = n) = true
  · rw [if_pos h]
    induction evs with
    | nil =>
      rw [List.any_nil] at h
      exact Bool.noConfusion h
    | cons kv t ih =>
      rw [List.map_cons]
      by_cases hk : kv.1 = n
      · rw [if_pos hk, List.find?_cons_of_pos _ (by simp)]
        rfl
      · rw [if_neg hk, List.find?_cons_of_neg _ (by simp [hk])]
        rw [List.any_cons, decide_eq_false hk, Bool.false_or] at h
        exact ih h
  · rw [if_neg h]
    have h2 : evs.find? (fun kv => decide (kv.1 = n)) = none := by
      rw [List.find?_eq_none]
      intro x hx hpx
      apply h
      rw [List.any_eq_true]
      exact ⟨x, hx, hpx⟩
    rw [List.find?_append, h2, List.find?_cons_of_pos _ (by simp)]
    rfl

theorem lookupEvent_insertEvent_ne (evs : List (PyStr × Spectral))
    (n' n : PyStr) (sp : Spectral) (h : n ≠ n') :
    lookupEvent (insertEvent evs n' sp) n = lookupEvent evs n := by
  have hne : ¬ n' = n := fun hc => h hc.symm
  unfold insertEvent lookupEvent
  by_cases hAny : evs.any (fun kv => kv.1 = n') = true
  · rw [if_pos hAny]
    congr 1
    clear hAny
    induction evs with
    | nil => rfl
    | cons kv t ih =>
      rw [List.map_cons]
      by_cases hk : kv.1 = n'
      · have hkn : ¬ kv.1 = n := fun hc => h (hc ▸ hk)
        rw [if_pos hk,
          List.find?_cons_of_neg _ (by simp only [decide_eq_true_eq]; exact hne),
          List.find?_cons_of_neg _ (by simp only [decide_eq_true_eq]; exact hkn)]
        exact ih
      · rw [if_neg hk]
        by_cases hkn : kv.1 = n
        · rw [List.find?_cons_of_pos _ (by simp [hkn]),
            List.find?_cons_of_pos _ (by simp [hkn])]
        · rw [List.find?_cons_of_neg _ (by simp [hkn]),
            List.find?_cons_of_neg _ (by simp [hkn])]
          exact ih
  · rw [if_neg hAny]
    rw [List.find?_append,
      show List.find? (fun kv => decide (kv.1 = n)) [(n', sp)] = none from by
        rw [List.find?_cons_of_neg _ (by simp only [decide_eq_true_eq]; exact hne)]
        rfl]
    cases List.find? (fun kv => decide (kv.1 = n)) evs <;> rfl

/-- C6: a baseline-mode `buildEvent` (event name containing the token
"baseline", case-insensitively) performs no peak detection — the result does
not depend on the peak extractor and `hipk` is untouched — and produces an
event whose `ave` is `ave.val` verbatim, whose `maxhold` is `maxhold.val`
verbatim, and whose `freq` is whichever of `ave.freq`/`maxhold.freq` is
strictly longer, a tie resolving to `maxhold.freq`. -/
theorem get_event_baseline (fp fp' : PeakFn) (rS : SpectrumReader) (r : Rids)
    (event a m : PyStr) (pol : Pol)
    (hname : hasSub (pystr "baseline") (pyLower event) = true) :
    r.get_event fp rS event a m pol = r.get_event fp' rS event a m pol ∧
    ∃ r' sp, r.get_event fp rS event a m pol = .ok r' ∧
      r'.hipk = r.hipk ∧
      lookupEvent r'.events event = some sp ∧
      sp.ave = some (.arr ((rS a pol).2.map .num)) ∧
      sp.maxhold = some (.arr ((rS m pol).2.map .num)) ∧
      ((rS m pol).1.length < (rS a pol).1.length →
        sp.freq = .arr ((rS a pol).1.map .num)) ∧
      ((rS a pol).1.length ≤ (rS m pol).1.length →
        sp.freq = .arr ((rS m pol).1.map .num)) := by
  have hstep : r.get_event fp rS event a m pol = .ok { r with
      events := insertEvent r.events event
        { comment := .str [], polarization := .str pol.code,
          freq := .arr ((if (rS a pol).1.length > (rS m pol).1.length
            then (rS a pol).1 else (rS m pol).1).map .num),
          val := .arr [],
          ave := some (.arr ((rS a pol).2.map .num)),
          maxhold := some (.arr ((rS m pol).2.map .num)) } } := by
    simp only [Rids.get_event, hname, if_true]
  constructor
  · simp [Rids.get_event, hname]
  · refine ⟨_, _, hstep, rfl, lookupEvent_insertEvent_self _ _ _, rfl, rfl, ?_, ?_⟩
    · intro hlen
      simp only [gt_iff_lt, if_pos hlen]
    · intro hlen
      have hc : ¬ (rS a pol).1.length > (rS m pol).1.length := by omega
      simp only [gt_iff_lt, if_neg hc]

/-- Witness for `get_event_baseline`: a concrete baseline build in which
`ave.freq` and `maxhold.freq` have equal length, so the tie resolves to
`maxhold.freq`. -/
theorem get_event_baseline_witness :
    (Rids.init.get_event sampleFp sampleRead (pystr "baseline_E")
        (pystr "a1") (pystr "m1") .E
      = Rids.init.get_event sampleFp0 sampleRead (pystr "baseline_E")
        (pystr "a1") (pystr "m1") .E) ∧
    ∃ r' sp, Rids.init.get_event sampleFp sampleRead (pystr "baseline_E")
        (pystr "a1") (pystr "m1") .E = .ok r' ∧
      r'.hipk = Rids.init.hipk ∧
      lookupEvent r'.events (pystr "baseline_E") = some sp ∧
      sp.ave = some (.arr [.num 2]) ∧
      sp.maxhold = some (.arr [.num 2]) ∧
      sp.freq = .arr [.num 1] := by
  obtain ⟨h1, r', sp, h2, h3, h4, h5, h6, _, h8⟩ :=
    get_event_baseline sampleFp sampleFp0 sampleRead Rids.init
      (pystr "baseline_E") (pystr "a1") (pystr "m1") .E rfl
  exact ⟨h1, r', sp, h2, h3, h4, h5, h6, h8 (by decide)⟩

/-- C4: a peak-mode `buildEvent` (event name not containing the token
"baseline") with detected peak index set `P` within the bounds of
`maxhold.freq` and `maxhold.val` raises no error; the event's `freq` and
`maxhold` are `maxhold.freq` and `maxhold.val` selected at `P`, while its
`ave` equals `ave.val` selected at `P` exactly when every index of `P` is
within bounds of `ave.val` and is otherwise left entirely unset (not an
empty array). -/
theorem get_event_peak (fp : PeakFn) (rS : SpectrumReader) (r : Rids)
    (event a m : PyStr) (pol : Pol)
    (hname : hasSub (pystr "baseline") (pyLower event) = false)
    (hfreq : ∀ i ∈ fp (rS m pol).2 r.threshold cwt_range rc_range,
      i < (rS m pol).1.length)
    (hval : ∀ i ∈ fp (rS m pol).2 r.threshold cwt_range rc_range,
      i < (rS m pol).2.length) :
    ∃ r' sp, r.get_event fp rS event a m pol = .ok r' ∧
      lookupEvent r'.events event = some sp ∧
      sp.freq = .arr (((fp (rS m pol).2 r.threshold cwt_range rc_range).map
        (fun i => (rS m pol).1.getD i 0)).map .num) ∧
      sp.maxhold = some (.arr (((fp (rS m pol).2 r.threshold cwt_range
        rc_range).map (fun i => (rS m pol).2.getD i 0)).map .num)) ∧
      ((∀ i ∈ fp (rS m pol).2 r.threshold cwt_range rc_range,
          i < (rS a pol).2.length) →
        sp.ave = some (.arr (((fp (rS m pol).2 r.threshold cwt_range
          rc_range).map (fun i => (rS a pol).2.getD i 0)).map .num))) ∧
      ((¬ ∀ i ∈ fp (rS m pol).2 r.threshold cwt_range rc_range,
          i < (rS a pol).2.length) →
        sp.ave = none) := by
  have hselF : selectAt (rS m pol).1 (fp (rS m pol).2 r.threshold cwt_range rc_range)
      = some ((fp (rS m pol).2 r.threshold cwt_range rc_range).map
        (fun i => (rS m pol).1.getD i 0)) := by
    rw [selectAt, if_pos]
    rw [List.all_eq_true]
    intro i hi
    exact decide_eq_true (hfreq i hi)
  have hselM : selectAt (rS m pol).2 (fp (rS m pol).2 r.threshold cwt_range rc_range)
      = some ((fp (rS m pol).2 r.threshold cwt_range rc_range).map
        (fun i => (rS m pol).2.getD i 0)) := by
    rw [selectAt, if_pos]
    rw [List.all_eq_true]
    intro i hi
    exact decide_eq_true (hval i hi)
  have hstep : r.get_event fp rS event a m pol = .ok
      { r.peak_finder fp (rS m pol).1 (rS m pol).2 with
        events := insertEvent r.events event
          { comment := .str [], polarization := .str pol.code,
            freq := .arr (((fp (rS m pol).2 r.threshold cwt_range rc_range).map
              (fun i => (rS m pol).1.getD i 0)).map .num),
            val := .arr [],
            ave := (selectAt (rS a pol).2 (fp (rS m pol).2 r.threshold cwt_range
              rc_range)).map (fun l => Json.arr (l.map .num)),
            maxhold := some (.arr (((fp (rS m pol).2 r.threshold cwt_range
              rc_range).map (fun i => (rS m pol).2.getD i 0)).map .num)) } } := by
    simp only [Rids.get_event, hname, Bool.false_eq_true, if_false, hselF, hselM]
    rfl
  refine ⟨_, _, hstep, lookupEvent_insertEvent_self _ _ _, rfl, rfl, ?_, ?_⟩
  · intro hin
    have hselA : selectAt (rS a pol).2 (fp (rS m pol).2 r.threshold cwt_range rc_range)
        = some ((fp (rS m pol).2 r.threshold cwt_range rc_range).map
          (fun i => (rS a pol).2.getD i 0)) := by
      rw [selectAt, if_pos]
      rw [List.all_eq_true]
      intro i hi
      exact decide_eq_true (hin i hi)
    simp only [hselA]
    rfl
  · intro hin
    have hselA : selectAt (rS a pol).2 (fp (rS m pol).2 r.threshold cwt_range rc_range)
        = none := by
      rw [selectAt, if_neg]
      rw [List.all_eq_true]
      intro hc
      exact hin (fun i hi => of_decide_eq_true (hc i hi))
    simp only [hselA]
    rfl

/-- Witness for `get_event_peak`: a concrete in-bounds build (peak set `{0}`)
and a concrete short-`ave` build in which the `ave` field is left unset. -/
theorem get_event_peak_witness :
    (∃ r' sp, Rids.init.get_event sampleFp0 sampleRead (pystr "20190201E")
        (pystr "a1") (pystr "m1") .E = .ok r' ∧
      lookupEvent r'.events (pystr "20190201E") = some sp ∧
      sp.freq = .arr [.num 1] ∧
      sp.maxhold = some (.arr [.num 2]) ∧
      sp.ave = some (.arr [.num 2])) ∧
    (∃ r' sp, Rids.init.get_event sampleFp0 sampleReadShort (pystr "20190201E")
        (pystr "a1") (pystr "m1") .E = .ok r' ∧
      lookupEvent r'.events (pystr "20190201E") = some sp ∧
      sp.ave = none) := by
  constructor
  · obtain ⟨r', sp, h1, h2, h3, h4, h5, _⟩ :=
      get_event_peak sampleFp0 sampleRead Rids.init (pystr "20190201E")
        (pystr "a1") (pystr "m1") .E rfl (by decide) (by decide)
    exact ⟨r', sp, h1, h2, h3, h4, h5 (by decide)⟩
  · obtain ⟨r', sp, h1, h2, _, _, _, h6⟩ :=
      get_event_peak sampleFp0 sampleReadShort Rids.init (pystr "20190201E")
        (pystr "a1") (pystr "m1") .E rfl (by decide) (by decide)
    exact ⟨r', sp, h1, h2, h6 (by decide)⟩

/-! ## Pipeline lemmas -/

theorem except_bind_ok {α β : Type} (a : α) (f : α → Except PyError β) :
    (Except.ok a >>= f) = f a := rfl

theorem except_bind_err {α β : Type} (e : PyError) (f : α → Except PyError β) :
    ((Except.error e : Except PyError α) >>= f) = Except.error e := rfl

/-- A successful `get_event` changes `events` by inserting one record under
the event's own name (and touches nothing else of the events map). -/
theorem get_event_ok_events (fp : PeakFn) (rS : SpectrumReader) (r : Rids)
    (event a m : PyStr) (pol : Pol) (r' : Rids)
    (h : r.get_event fp rS event a m pol = .ok r') :
    ∃ sp, r'.events = insertEvent r.events event sp := by
  unfold Rids.get_event at h
  split at h
  · cases h
    exact ⟨_, rfl⟩
  · dsimp only at h
    split at h
    · exact Except.noConfusion h
    · split at h
      · exact Except.noConfusion h
      · cases h
        exact ⟨_, rfl⟩

/-- A successful batch run deletes exactly the files of its pairs, in order. -/
theorem processBatch_ok_fs (fp : PeakFn) (rS : SpectrumReader)
    (peelTS : TimeStampFn) (pol : Pol) (pairs : List (PyStr × PyStr)) :
    ∀ r fs r' fs', processBatch fp rS peelTS pol pairs r fs = .ok (r', fs') →
      fs' = pairs.foldl (fun s am => (s.erase am.1).erase am.2) fs := by
  induction pairs with
  | nil =>
    intro r fs r' fs' h
    rw [processBatch] at h
    cases h
    rfl
  | cons am rest ih =>
    obtain ⟨a, m⟩ := am
    intro r fs r' fs' h
    rw [processBatch] at h
    cases hge : Rids.get_event fp rS r (peelTS a ++ pol.code) a m pol with
    | error e =>
      rw [hge, except_bind_err] at h
      exact Except.noConfusion h
    | ok r1 =>
      rw [hge, except_bind_ok] at h
      cases hr1 : osRemove fs a with
      | error e =>
        rw [hr1, except_bind_err] at h
        exact Except.noConfusion h
      | ok fs1 =>
        rw [hr1, except_bind_ok] at h
        cases hr2 : osRemove fs1 m with
        | error e =>
          rw [hr2, except_bind_err] at h
          exact Except.noConfusion h
        | ok fs2 =>
          rw [hr2, except_bind_ok] at h
          have hfs1 : fs1 = fs.erase a := by
            rw [osRemove] at hr1
            by_cases hm : a ∈ fs
            · rw [if_pos hm] at hr1
              exact (Except.ok.inj hr1).symm
            · rw [if_neg hm] at hr1
              exact Except.noConfusion hr1
          have hfs2 : fs2 = fs1.erase m := by
            rw [osRemove] at hr2
            by_cases hm : m ∈ fs1
            · rw [if_pos hm] at hr2
              exact (Except.ok.inj hr2).symm
            · rw [if_neg hm] at hr2
              exact Except.noConfusion hr2
          rw [List.foldl_cons]
          rw [hfs1] at hfs2
          rw [← hfs2]
          exact ih r1 fs2 r' fs' h

/-- A successful batch run never disturbs an event whose name is not among
its pairs' event names. -/
theorem processBatch_ok_events (fp : PeakFn) (rS : SpectrumReader)
    (peelTS : TimeStampFn) (pol : Pol) (pairs : List (PyStr × PyStr))
    (name : PyStr) :
    ∀ r fs r' fs', processBatch fp rS peelTS pol pairs r fs = .ok (r', fs') →
      (∀ am ∈ pairs, name ≠ peelTS am.1 ++ pol.code) →
      lookupEvent r'.events name = lookupEvent r.events name := by
  induction pairs with
  | nil =>
    intro r fs r' fs' h _
    rw [processBatch] at h
    cases h
    rfl
  | cons am rest ih =>
    obtain ⟨a, m⟩ := am
    intro r fs r' fs' h hnc
    rw [processBatch] at h
    cases hge : Rids.get_event fp rS r (peelTS a ++ pol.code) a m pol with
    | error e =>
      rw [hge, except_bind_err] at h
      exact Except.noConfusion h
    | ok r1 =>
      rw [hge, except_bind_ok] at h
      cases hr1 : osRemove fs a with
      | error e =>
        rw [hr1, except_bind_err] at h
        exact Except.noConfusion h
      | ok fs1 =>
        rw [hr1, except_bind_ok] at h
        cases hr2 : osRemove fs1 m with
        | error e =>
          rw [hr2, except_bind_err] at h
          exact Except.noConfusion h
        | ok fs2 =>
          rw [hr2, except_bind_ok] at h
          obtain ⟨sp, hsp⟩ := get_event_ok_events fp rS r _ a m pol r1 hge
          have hrec := ih r1 fs2 r' fs' h (fun x hx => hnc x (List.mem_cons_of_mem _ hx))
          rw [hrec, hsp,
            lookupEvent_insertEvent_ne _ _ _ _ (hnc (a, m) (List.mem_cons_self _ _))]

/-- The batch fold over erasures only removes files. -/
theorem foldl_erase_subset (pairs : List (PyStr × PyStr)) :
    ∀ s : List PyStr,
      pairs.foldl (fun s am => (s.erase am.1).erase am.2) s ⊆ s := by
  induction pairs with
  | nil => intro s x hx; exact hx
  | cons am rest ih =>
    intro s x hx
    have h1 := ih ((s.erase am.1).erase am.2) hx
    exact List.erase_subset _ _ (List.erase_subset _ _ h1)

/-- The baseline name `'baseline_' + pol` passes the case-insensitive
"baseline" test of `get_event`. -/
theorem baseline_name_hasSub (pol : Pol) :
    hasSub (pystr "baseline") (pyLower (pystr "baseline_" ++ pol.code)) = true := by
  cases pol <;> rfl

/-- C1 (amended): in a scan cycle, a polarization with equal-length non-empty
`ave`/`maxh` lists gets its baseline event built from the first pair, but the
obs batch is the slice `[:obs_per_file]` of both lists — it starts at index 0
and therefore includes the baseline pair.  After a successful
per-polarization pass the removed files are exactly those of the first
`min(length, obs_per_file)` pairs, so with a positive `obs_per_file` the
baseline pair's source files are deleted and do not remain on disk. -/
theorem batch_consumption (fp : PeakFn) (rS : SpectrumReader)
    (peelTS : TimeStampFn) (obs : ℕ) (pol : Pol)
    (a0 m0 : PyStr) (restA restM : List PyStr) (r : Rids) (fs : List PyStr)
    (r' : Rids) (fs' : List PyStr)
    (hlen : (a0 :: restA).length = (m0 :: restM).length)
    (hok : processPol fp rS peelTS obs pol (a0 :: restA) (m0 :: restM) r fs
      = .ok (r', fs'))
    (hnc : ∀ x ∈ a0 :: restA,
      pystr "baseline_" ++ pol.code ≠ peelTS x ++ pol.code) :
    (∃ sp, lookupEvent r'.events (pystr "baseline_" ++ pol.code) = some sp ∧
      sp.ave = some (.arr ((rS a0 pol).2.map .num)) ∧
      sp.maxhold = some (.arr ((rS m0 pol).2.map .num))) ∧
    fs' = (List.zip ((a0 :: restA).take obs) ((m0 :: restM).take obs)).foldl
      (fun s am => (s.erase am.1).erase am.2) fs ∧
    (fs.Nodup → 1 ≤ obs → a0 ∉ fs' ∧ m0 ∉ fs') := by
  rw [processPol, if_neg (by rw [hlen]; exact fun hc => hc rfl)] at hok
  have hset : Rids.set r [(pystr "time_stamp", .str (peelTS a0))]
      = .ok (r.setD .time_stamp (.str (peelTS a0))) := rfl
  rw [hset, except_bind_ok] at hok
  have hbase : (r.setD .time_stamp (.str (peelTS a0))).get_event fp rS
      (pystr "baseline_" ++ pol.code) a0 m0 pol
      = .ok { r.setD .time_stamp (.str (peelTS a0)) with
          events := insertEvent (r.setD .time_stamp (.str (peelTS a0))).events
            (pystr "baseline_" ++ pol.code)
            { comment := .str [], polarization := .str pol.code,
              freq := .arr ((if (rS a0 pol).1.length > (rS m0 pol).1.length
                then (rS a0 pol).1 else (rS m0 pol).1).map .num),
              val := .arr [],
              ave := some (.arr ((rS a0 pol).2.map .num)),
              maxhold := some (.arr ((rS m0 pol).2.map .num)) } } := by
    simp only [Rids.get_event, baseline_name_hasSub, if_true]
  rw [hbase, except_bind_ok] at hok
  have hpairs : ∀ x ∈ List.zip ((a0 :: restA).take obs) ((m0 :: restM).take obs),
      pystr "baseline_" ++ pol.code ≠ peelTS x.1 ++ pol.code := by
    intro x hx
    have hmem := List.of_mem_zip hx
    exact hnc x.1 (List.mem_of_mem_take hmem.1)
  refine ⟨?_, processBatch_ok_fs fp rS peelTS pol _ _ _ _ _ hok, ?_⟩
  · rw [processBatch_ok_events fp rS peelTS pol _ _ _ _ _ _ hok hpairs]
    rw [lookupEvent_insertEvent_self]
    exact ⟨_, rfl, rfl, rfl⟩
  · intro hnd hobs
    have hfs' := processBatch_ok_fs fp rS peelTS pol _ _ _ _ _ hok
    obtain ⟨k, hk⟩ : ∃ k, obs = k + 1 := ⟨obs - 1, by omega⟩
    subst hk
    have hzip : List.zip ((a0 :: restA).take (k + 1)) ((m0 :: restM).take (k + 1))
        = (a0, m0) :: List.zip (restA.take k) (restM.take k) := rfl
    rw [hzip, List.foldl_cons] at hfs'
    have hsub := foldl_erase_subset (List.zip (restA.take k) (restM.take k))
      ((fs.erase a0).erase m0)
    constructor
    · intro hmem
      have h1 : a0 ∈ (fs.erase a0).erase m0 := hsub (hfs' ▸ hmem)
      exact hnd.not_mem_erase (List.erase_subset _ _ h1)
    · intro hmem
      have h1 : m0 ∈ (fs.erase a0).erase m0 := hsub (hfs' ▸ hmem)
      exact (hnd.erase a0).not_mem_erase h1

/-- Witness for `batch_consumption`: a concrete successful per-polarization
pass over two pairs, after which neither the baseline `ave` file nor the
baseline `maxh` file is on disk. -/
theorem batch_consumption_witness :
    (∃ st, processPol sampleFp sampleRead sampleTS 100 .E
        [pystr "a1", pystr "a2"] [pystr "m1", pystr "m2"] Rids.init
        [pystr "a1", pystr "a2", pystr "m1", pystr "m2"] = .ok st ∧
      (∃ sp, lookupEvent st.1.events (pystr "baseline_E") = some sp ∧
        sp.ave = some (.arr [.num 2]) ∧ sp.maxhold = some (.arr [.num 2])) ∧
      pystr "a1" ∉ st.2 ∧ pystr "m1" ∉ st.2) := by
  obtain ⟨h1, _, h3⟩ := batch_consumption sampleFp sampleRead sampleTS 100 .E
    (pystr "a1") (pystr "m1") [pystr "a2"] [pystr "m2"] Rids.init
    [pystr "a1", pystr "a2", pystr "m1", pystr "m2"] _ _ rfl rfl (by decide)
  obtain ⟨h4, h5⟩ := h3 (by decide) (by omega)
  exact ⟨_, rfl, h1, h4, h5⟩

/-- C1 counterexample: a cycle over a directory holding exactly the E-files
`a1, a2` (ave) and `m1, m2` (maxh) with the default `obs_per_file` builds the
baseline event plus two peak events `1E`, `2E` — one of them from the
baseline pair itself — and afterwards the directory holds only the written
output document: all four source files, the baseline pair's included, were
deleted, contradicting the claim that after building N peak events only the
N non-baseline pairs are removed and the baseline pair remains on disk. -/
theorem batch_consumption_counterexample :
    (processCycle sampleClassify sampleFp sampleRead sampleTS 100 Rids.init
        [pystr "a1", pystr "a2", pystr "m1", pystr "m2"]).map
      (fun st => (st.1.events.map Prod.fst, st.2.1))
    = .ok ([pystr "baseline_E", pystr "1E", pystr "2E"], [pystr "1.ridz"]) := rfl

/-- The per-polarization body skips silently (state untouched, no error)
when either path list is empty or the two lengths differ. -/
theorem processPol_skip (fp : PeakFn) (rS : SpectrumReader)
    (peelTS : TimeStampFn) (obs : ℕ) (pol : Pol) (aveL maxhL : List PyStr)
    (r : Rids) (fs : List PyStr)
    (hskip : aveL = [] ∨ maxhL = [] ∨ aveL.length ≠ maxhL.length) :
    processPol fp rS peelTS obs pol aveL maxhL r fs = .ok (r, fs) := by
  rcases hskip with h | h | h
  · subst h
    cases maxhL <;> rfl
  · subst h
    cases aveL <;> rfl
  · cases aveL with
    | nil => cases maxhL <;> rfl
    | cons a0 restA =>
      cases maxhL with
      | nil => rfl
      | cons m0 restM =>
        rw [processPol, if_pos h]

/-- C7: a polarization whose `ave` and `maxh` lists are empty or of unequal
length is skipped for the cycle — no events are built for it and no error is
signalled — and when every polarization is in that situation the cycle still
completes: the document is unchanged, the end-of-cycle output file is
written, and the continue flag is whatever the scan saw, so the loop may
keep running. -/
theorem pairing_skip (classify : ClassifyFn) (fp : PeakFn) (rS : SpectrumReader)
    (peelTS : TimeStampFn) (obs : ℕ) (pol : Pol) (aveL maxhL : List PyStr)
    (r : Rids) (fs : List PyStr)
    (hskip : aveL = [] ∨ maxhL = [] ∨ aveL.length ≠ maxhL.length)
    (hall : ∀ p : Pol,
      (classifyFiles classify (sortFiles fs)).1.get .ave p = [] ∨
      (classifyFiles classify (sortFiles fs)).1.get .maxh p = [] ∨
      ((classifyFiles classify (sortFiles fs)).1.get .ave p).length
        ≠ ((classifyFiles classify (sortFiles fs)).1.get .maxh p).length) :
    processPol fp rS peelTS obs pol aveL maxhL r fs = .ok (r, fs) ∧
    processCycle classify fp rS peelTS obs r fs
      = .ok (r, writeFile fs (outputName r),
          (classifyFiles classify (sortFiles fs)).2) := by
  refine ⟨processPol_skip fp rS peelTS obs pol aveL maxhL r fs hskip, ?_⟩
  rw [processCycle]
  rw [processPol_skip fp rS peelTS obs .E _ _ r fs (hall .E), except_bind_ok]
  rw [processPol_skip fp rS peelTS obs .N _ _ r fs (hall .N), except_bind_ok]

/-- Witness for `pairing_skip`: a directory with three `ave` and two `maxh`
files for polarization E (none for N); the cycle builds nothing, writes the
output file and reports that qualifying files remain. -/
theorem pairing_skip_witness :
    processPol sampleFp sampleRead sampleTS 100 .E
      [pystr "a1", pystr "a2", pystr "a3"] [pystr "m1", pystr "m2"] Rids.init
      [pystr "a1", pystr "a2", pystr "a3", pystr "m1", pystr "m2"]
      = .ok (Rids.init,
          [pystr "a1", pystr "a2", pystr "a3", pystr "m1", pystr "m2"]) ∧
    processCycle sampleClassify sampleFp sampleRead sampleTS 100 Rids.init
      [pystr "a1", pystr "a2", pystr "a3", pystr "m1", pystr "m2"]
      = .ok (Rids.init,
          pystr "None.ridz"
            :: [pystr "a1", pystr "a2", pystr "a3", pystr "m1", pystr "m2"],
          true) := by
  obtain ⟨h1, h2⟩ := pairing_skip sampleClassify sampleFp sampleRead sampleTS 100 .E
    [pystr "a1", pystr "a2", pystr "a3"] [pystr "m1", pystr "m2"] Rids.init
    [pystr "a1", pystr "a2", pystr "a3", pystr "m1", pystr "m2"]
    (by decide) (by intro p; cases p <;> decide)
  exact ⟨h1, h2⟩

/-- C8: `process_files` terminates: a run that returns normally executed at
most `max_loops` scan cycles, and every cycle except possibly the last saw a
qualifying (`ave`/`maxh`) file — equivalently, a cycle that finds none is
the last one (an uncaught exception also ends the run, trivially within the
same bound). -/
theorem process_files_termination (classify : ClassifyFn) (fp : PeakFn)
    (rS : SpectrumReader) (peelTS : TimeStampFn) (obs max_loops : ℕ)
    (r : Rids) (fs : List PyStr) (flags : List Bool) (r' : Rids)
    (fs' : List PyStr)
    (hok : Rids.process_files classify fp rS peelTS r fs obs max_loops
      = .ok (flags, r', fs')) :
    flags.length ≤ max_loops ∧
    ∀ i, i + 1 < flags.length → flags.getD i false = true := by
  rw [Rids.process_files] at hok
  induction max_loops generalizing r fs flags r' fs' with
  | zero =>
    rw [runLoop] at hok
    cases hok
    exact ⟨Nat.le_refl 0, fun i hi => absurd hi (by simp)⟩
  | succ n ih =>
    rw [runLoop] at hok
    cases hc : processCycle classify fp rS peelTS obs r fs with
    | error e =>
      rw [hc, except_bind_err] at hok
      exact Except.noConfusion hok
    | ok st =>
      rw [hc, except_bind_ok] at hok
      by_cases hflag : st.2.2 = true
      · rw [if_pos hflag] at hok
        cases hrec : runLoop classify fp rS peelTS obs n st.1 st.2.1 with
        | error e =>
          rw [hrec, except_bind_err] at hok
          exact Except.noConfusion hok
        | ok out =>
          rw [hrec, except_bind_ok] at hok
          obtain ⟨out1, outR⟩ := out
          obtain ⟨out2, out3⟩ := outR
          cases hok
          obtain ⟨ih1, ih2⟩ := ih st.1 st.2.1 _ _ _ hrec
          refine ⟨by simpa using Nat.succ_le_succ ih1, ?_⟩
          intro i hi
          cases i with
          | zero => exact hflag
          | succ j =>
            exact ih2 j (by simpa using Nat.lt_of_succ_lt_succ hi)
      · rw [if_neg hflag] at hok
        cases hok
        refine ⟨by simp, ?_⟩
        intro i hi
        simp only [List.length_cons, List.length_nil] at hi
        omega

/-- Witness for `process_files_termination`: a run over an empty directory
returns after its single cycle (which finds no qualifying files). -/
theorem process_files_termination_witness :
    Rids.process_files sampleClassify sampleFp sampleRead sampleTS
        Rids.init [] 100 5
      = .ok ([false], Rids.init, [pystr "None.ridz"]) ∧
    ([false] : List Bool).length ≤ 5 ∧
    ∀ i, i + 1 < ([false] : List Bool).length
      → ([false] : List Bool).getD i false = true := by
  refine ⟨rfl, ?_⟩
  exact process_files_termination sampleClassify sampleFp sampleRead sampleTS
    100 5 Rids.init [] [false] Rids.init [pystr "None.ridz"] rfl

/-- C2 counterexample: saving a document with only direct fields and
calibration set and loading the file into a fresh document does not
reproduce the original field-for-field — the unit-split header slots, `None`
in the original, come back as the literal string `"None"` (the writer
renders each unset pair as the string `"None None"`, which the loader then
splits). -/
theorem round_trip_counterexample :
    Rids.init.rid_reader (some sampleDoc.rid_writer) ≠ .ok sampleDoc := by
  intro h
  have h1 : (Rids.init.rid_reader (some sampleDoc.rid_writer)).map
      (fun r => r.channel_width) = .ok Json.null := by
    rw [h]
    rfl
  have h2 : (Rids.init.rid_reader (some sampleDoc.rid_writer)).map
      (fun r => r.channel_width) = .ok (Json.str (pystr "None")) := rfl
  rw [h1] at h2
  exact Json.noConfusion (Except.ok.inj h2)

/-- C2 (amended): for a document in which only the direct fields and the two
calibration records are set (comment, unit-split fields, events and the peak
scratch state unset), saving with `rid_writer` and loading with `rid_reader`
into a fresh empty document restores every field verbatim except the four
unit-split fields and their units, which come back as the literal string
`"None"` instead of unset. -/
theorem round_trip (r : Rids)
    (h1 : r.channel_width = .null) (h2 : r.channel_width_unit = .null)
    (h3 : r.vbw = .null) (h4 : r.vbw_unit = .null)
    (h5 : r.time_constant = .null) (h6 : r.time_constant_unit = .null)
    (h7 : r.threshold = .null) (h8 : r.threshold_unit = .null)
    (h9 : r.events = []) (h10 : r.hipk = none)
    (h11 : r.hipk_freq = []) (h12 : r.hipk_val = [])
    (h13 : r.calE.ave = none) (h14 : r.calE.maxhold = none)
    (h15 : r.calN.ave = none) (h16 : r.calN.maxhold = none) :
    Rids.init.rid_reader (some r.rid_writer)
      = .ok { r with
          channel_width := .str (pystr "None"),
          channel_width_unit := .str (pystr "None"),
          vbw := .str (pystr "None"), vbw_unit := .str (pystr "None"),
          time_constant := .str (pystr "None"),
          time_constant_unit := .str (pystr "None"),
          threshold := .str (pystr "None"),
          threshold_unit := .str (pystr "None") } := by
  obtain ⟨i, rec, cw, cwu, vb, vbu, tc, tcu, th, thu, fu, vu, com, ts,
    cE, cN, evs, hp, hpf, hpv⟩ := r
  obtain ⟨cEc, cEp, cEf, cEv, cEa, cEm⟩ := cE
  obtain ⟨cNc, cNp, cNf, cNv, cNa, cNm⟩ := cN
  simp only at h1 h2 h3 h4 h5 h6 h7 h8 h9 h10 h11 h12 h13 h14 h15 h16
  subst h1 h2 h3 h4 h5 h6 h7 h8 h9 h10 h11 h12 h13 h14 h15 h16
  cases com <;> rfl

/-- Witness for `round_trip`: the concrete `sampleDoc`. -/
theorem round_trip_witness :
    Rids.init.rid_reader (some sampleDoc.rid_writer)
      = .ok { sampleDoc with
          channel_width := .str (pystr "None"),
          channel_width_unit := .str (pystr "None"),
          vbw := .str (pystr "None"), vbw_unit := .str (pystr "None"),
          time_constant := .str (pystr "None"),
          time_constant_unit := .str (pystr "None"),
          threshold := .str (pystr "None"),
          threshold_unit := .str (pystr "None") } :=
  round_trip sampleDoc rfl rfl rfl rfl rfl rfl rfl rfl rfl rfl rfl rfl
    rfl rfl rfl rfl
